import Mathlib

/-!
Shallow embedding of the glass-scribe-verse backend's live community update
stream (`src/app/routers/communities.py`, `event_generator` inside
`stream_community_updates`), the presence endpoints
(`src/app/routers/users.py`, `get_user_presence` / `update_user_presence`)
and the typing-indicator endpoints (`src/app/routers/channels.py`,
`send_typing_indicator` / `get_typing_indicators`).

Modelling conventions:
* MongoDB documents become structures; a collection is a `List` of documents;
  `find_one` is the first matching element of the list.
* `datetime` instants become `Nat`; `format_timestamp` renders an instant for
  display only, so events carry the underlying instant instead of the string.
* BSON `ObjectId` message ids become `Nat` (ids are totally ordered);
  `ObjectId.is_valid` on a textual id is 24 hex characters.
* Python dict field access `d["k"]` on a field that an upsert may omit is an
  `Option` read whose `none` case raises `KeyError`; fields the application
  always writes are plain structure fields.
* An async generator that yields SSE events becomes a function returning the
  list of yielded events; a cycle of the `while True` loop that raises part
  way through has already yielded a prefix of its events, so a cycle result
  is either `ok` (all events) or `err` (the yielded prefix plus the message
  of the exception).
-/

namespace GlassScribe

/-- `ObjectId.is_valid` for a textual id: 24 hexadecimal characters. -/
def isValidObjectId (s : String) : Bool :=
  s.length == 24 && s.toList.all fun c =>
    c.isDigit || (('a' ≤ c) && (c ≤ 'f')) || (('A' ≤ c) && (c ≤ 'F'))

/-- A document of the `posts` collection, as read by the stream. -/
structure MessageDoc where
  id : Nat
  community_id : String
  channel_id : Option String
  author_id : String
  content : String
  mtype : String
  reply_to : Option String
  created_at : Nat
  updated_at : Option Nat
  is_edited : Bool
  edited_at : Option Nat
  deriving DecidableEq, Repr

/-- A document of the `users` collection (the fields the stream reads). -/
structure UserDoc where
  id : String
  name : String
  username : Option String
  avatar : Option String
  deriving DecidableEq, Repr

/-- A document of the `user_presence` collection.  `last_seen` is an
`Option` because `update_user_presence` upserts without a `last_seen`
field when the status is not `online`. -/
structure PresenceDoc where
  user_id : String
  status : String
  custom_message : Option String
  last_seen : Option Nat
  updated_at : Nat
  deriving DecidableEq, Repr

/-- A document of the `communities` collection (the fields the stream and
the typing endpoints read). -/
structure CommunityDoc where
  id : String
  members : List String
  deriving DecidableEq, Repr

/-- A document of the `channels` collection (the fields the typing
endpoints read). -/
structure ChannelDoc where
  id : String
  community_id : String
  name : String
  deriving DecidableEq, Repr

/-- A document of the `typing_indicators` collection. -/
structure TypingDoc where
  user_id : String
  username : String
  avatar : Option String
  community_id : String
  channel_id : String
  started_at : Nat
  expires_at : Nat
  deriving DecidableEq, Repr

/-- The whole document store, one field per collection the embedded
endpoints touch. -/
structure DB where
  posts : List MessageDoc
  users : List UserDoc
  user_presence : List PresenceDoc
  communities : List CommunityDoc
  channels : List ChannelDoc
  typing_indicators : List TypingDoc
  deriving DecidableEq, Repr

/-- `db.users.find_one` by id. -/
def findUser (db : DB) (uid : String) : Option UserDoc :=
  db.users.find? fun u => u.id == uid

/-- `db.communities.find_one` by id. -/
def findCommunity (db : DB) (cid : String) : Option CommunityDoc :=
  db.communities.find? fun c => c.id == cid

/-- `db.user_presence.find_one` by user id. -/
def findPresence (db : DB) (uid : String) : Option PresenceDoc :=
  db.user_presence.find? fun p => p.user_id == uid

/-- The author summary built for each streamed message. -/
structure AuthorInfo where
  id : String
  name : String
  username : String
  avatar : String
  deriving DecidableEq, Repr

/-- The ad hoc `data` dictionaries of the stream's events, one constructor
per dictionary shape built in `event_generator`. -/
inductive EventData where
  | connected (status message : String)
  | message (id : Nat) (content : String) (author : AuthorInfo) (mtype : String)
      (channel_id : Option String) (community_id : String)
      (reply_to : Option String) (created_at updated_at : Nat)
      (is_edited : Bool) (edited_at : Option Nat)
  | presence (user_id status : String) (custom_message : Option String)
      (last_seen updated_at : Nat)
  | join (user_id name username avatar : String)
  | leave (user_id : String)
  | heartbeat (timestamp : Nat)
  | error (err message : String)
  deriving DecidableEq, Repr

/-- The SSE envelope (`SSEEvent` in `src/app/models/community.py`). -/
structure SSEEvent where
  etype : String
  data : EventData
  community_id : String
  channel_id : Option String
  timestamp : Nat
  deriving DecidableEq, Repr

/-- The initial connection event: note the source gives it
`SSEEventType.MESSAGE`, i.e. envelope type `"message"`, with a
`connected` payload. -/
def connectionEvent (cid : String) (chan : Option String) (now : Nat) : SSEEvent :=
  { etype := "message"
    data := .connected "connected" "Connected to community stream"
    community_id := cid
    channel_id := chan
    timestamp := now }

/-- The comparison `sort("created_at", 1)` sorts by. -/
def createdLE (a b : MessageDoc) : Prop :=
  a.created_at ≤ b.created_at

instance : DecidableRel createdLE := fun a b =>
  inferInstanceAs (Decidable (a.created_at ≤ b.created_at))

/-- `sort("created_at", 1)`: sort ascending by creation time. -/
def sortByCreated (l : List MessageDoc) : List MessageDoc :=
  List.insertionSort createdLE l

/-- The message query of one polling cycle: community filter, strict
`created_at > last_check`, optional channel filter, optional `_id > after`
filter, ascending sort, and the 50-message ceiling (`to_list(50)`). -/
def queryNewMessages (db : DB) (cid : String) (chan : Option String)
    (afterId : Option Nat) (lastCheck : Nat) : List MessageDoc :=
  (sortByCreated (db.posts.filter fun m =>
    m.community_id == cid
      && lastCheck < m.created_at
      && (match chan with
          | none => true
          | some c => m.channel_id == some c)
      && (match afterId with
          | none => true
          | some a => a < m.id))).take 50

/-- Author resolution for a streamed message: a found user yields the real
summary, a missing user yields the `"Unknown User"` placeholder. -/
def buildAuthorInfo (db : DB) (aid : String) : AuthorInfo :=
  match findUser db aid with
  | some author =>
      { id := author.id
        name := author.name
        username := author.username.getD ""
        avatar := author.avatar.getD "" }
  | none =>
      { id := aid, name := "Unknown User", username := "unknown", avatar := "" }

/-- The `message` event built for one new message. -/
def buildMessageEvent (db : DB) (cid : String) (m : MessageDoc) : SSEEvent :=
  { etype := "message"
    data := .message m.id m.content (buildAuthorInfo db m.author_id) m.mtype
      m.channel_id cid m.reply_to m.created_at
      (m.updated_at.getD m.created_at) m.is_edited m.edited_at
    community_id := cid
    channel_id := m.channel_id
    timestamp := m.created_at }

/-- The `presence` event built for one presence update whose `last_seen`
field is present. -/
def buildPresenceEvent (cid : String) (p : PresenceDoc) (ls : Nat) : SSEEvent :=
  { etype := "presence"
    data := .presence p.user_id p.status p.custom_message ls p.updated_at
    community_id := cid
    channel_id := none
    timestamp := p.updated_at }

/-- The presence loop of a cycle.  Accessing `presence["last_seen"]` on a
record without the field raises `KeyError`; events yielded before the
raise have already been emitted, so the error case carries them. -/
def emitPresence (cid : String) : List PresenceDoc →
    Except (List SSEEvent × String) (List SSEEvent)
  | [] => .ok []
  | p :: rest =>
      match p.last_seen with
      | none => .error ([], "KeyError: last_seen")
      | some ls =>
          match emitPresence cid rest with
          | .ok evs => .ok (buildPresenceEvent cid p ls :: evs)
          | .error (pre, msg) => .error (buildPresenceEvent cid p ls :: pre, msg)

/-- The presence query of one cycle: presence records of current members
(the snapshot held from the previous cycle) updated since the checkpoint. -/
def queryPresence (db : DB) (prevMembers : List String) (lastCheck : Nat) :
    List PresenceDoc :=
  db.user_presence.filter fun p =>
    prevMembers.contains p.user_id && lastCheck < p.updated_at

/-- `set(current) - set(previous)`: ids present now but absent before. -/
def membershipJoins (prevMembers curMembers : List String) : List String :=
  curMembers.dedup.filter fun x => !prevMembers.contains x

/-- `set(previous) - set(current)`: ids present before but absent now. -/
def membershipLeaves (prevMembers curMembers : List String) : List String :=
  prevMembers.dedup.filter fun x => !curMembers.contains x

/-- The `user_join` event for one joined member whose user document was
found. -/
def buildJoinEvent (cid : String) (uid : String) (u : UserDoc) (now : Nat) :
    SSEEvent :=
  { etype := "user_join"
    data := .join uid u.name (u.username.getD "") (u.avatar.getD "")
    community_id := cid
    channel_id := none
    timestamp := now }

/-- The `user_leave` event for one departed member. -/
def buildLeaveEvent (cid : String) (uid : String) (now : Nat) : SSEEvent :=
  { etype := "user_leave"
    data := .leave uid
    community_id := cid
    channel_id := none
    timestamp := now }

/-- The `heartbeat` event closing every successful cycle. -/
def heartbeatEvent (cid : String) (now : Nat) : SSEEvent :=
  { etype := "heartbeat"
    data := .heartbeat now
    community_id := cid
    channel_id := none
    timestamp := now }

/-- The in-stream `error` event: `str(e)` plus the fixed human-readable
message. -/
def errorEvent (cid : String) (msg : String) (now : Nat) : SSEEvent :=
  { etype := "error"
    data := .error msg "Stream error occurred"
    community_id := cid
    channel_id := none
    timestamp := now }

/-- The outcome of one pass of the `while True` body: either every event
of the cycle plus the advanced checkpoint and the new membership snapshot,
or the events yielded before an exception plus its message. -/
inductive CycleResult where
  | ok (events : List SSEEvent) (newLastCheck : Nat) (newMembers : List String)
  | err (emitted : List SSEEvent) (msg : String)
  deriving DecidableEq, Repr

/-- The join loop: joined members are looked up in `users` and silently
skipped when the lookup finds nothing. -/
def buildJoinEvents (db : DB) (cid : String) (joined : List String)
    (now : Nat) : List SSEEvent :=
  joined.filterMap fun uid => (findUser db uid).map fun u =>
    buildJoinEvent cid uid u now

/-- One polling cycle of `event_generator`: messages, then presence, then
the membership re-read and diff, then the checkpoint advance and the
heartbeat.  Exceptions arise from a presence record without `last_seen`
(`KeyError`) and from the community having disappeared
(`None.get` raising `AttributeError`). -/
def runCycle (db : DB) (cid : String) (chan : Option String)
    (afterId : Option Nat) (lastCheck : Nat) (prevMembers : List String)
    (now : Nat) : CycleResult :=
  let msgEvents := (queryNewMessages db cid chan afterId lastCheck).map
    (buildMessageEvent db cid)
  match emitPresence cid (queryPresence db prevMembers lastCheck) with
  | .error (pre, msg) => .err (msgEvents ++ pre) msg
  | .ok presEvents =>
      match findCommunity db cid with
      | none =>
          .err (msgEvents ++ presEvents)
            "AttributeError: NoneType object has no attribute get"
      | some comm =>
          let joined := membershipJoins prevMembers comm.members
          let left := membershipLeaves prevMembers comm.members
          let joinEvents := buildJoinEvents db cid joined now
          let leaveEvents := left.map fun uid => buildLeaveEvent cid uid now
          .ok (msgEvents ++ presEvents ++ joinEvents ++ leaveEvents
              ++ [heartbeatEvent cid now])
            now comm.members

/-- The events a cycle actually yields, in both outcomes (an erroring
cycle yields its emitted prefix and then the `error` event). -/
def cycleEvents (cid : String) (now : Nat) : CycleResult → List SSEEvent
  | .ok evs _ _ => evs
  | .err pre msg => pre ++ [errorEvent cid msg now]

/-- The loop of `event_generator`, driven by one `(database, clock)` pair
per cycle: an erroring cycle yields its events plus one `error` event and
breaks; otherwise the loop continues with the advanced checkpoint and the
new membership snapshot. -/
def streamLoop (cid : String) (chan : Option String) (afterId : Option Nat) :
    List (DB × Nat) → Nat → List String → List SSEEvent
  | [], _, _ => []
  | (db, now) :: rest, lastCheck, prevMembers =>
      match runCycle db cid chan afterId lastCheck prevMembers now with
      | .ok evs lc mems => evs ++ streamLoop cid chan afterId rest lc mems
      | .err pre msg => pre ++ [errorEvent cid msg now]

/-- The whole generator: the initial connection event, then the loop,
starting from the community document captured before the stream opened. -/
def runStream (cid : String) (chan : Option String) (afterId : Option Nat)
    (initMembers : List String) (t0 : Nat) (inputs : List (DB × Nat)) :
    List SSEEvent :=
  connectionEvent cid chan t0 :: streamLoop cid chan afterId inputs t0 initMembers

/-- HTTP-level failures of the embedded endpoints. -/
inductive HErr where
  | badRequest
  | notFound
  | forbidden
  | keyError
  deriving DecidableEq, Repr

/-- The endpoint `stream_community_updates`: id validation, community
lookup, membership check, then the streaming response produced by
`event_generator`. -/
def stream_community_updates (db0 : DB) (cid : String) (chan : Option String)
    (afterId : Option Nat) (caller : String) (t0 : Nat)
    (inputs : List (DB × Nat)) : Except HErr (List SSEEvent) :=
  if !isValidObjectId cid then .error .badRequest
  else
    match findCommunity db0 cid with
    | none => .error .notFound
    | some comm =>
        if !comm.members.contains caller then .error .forbidden
        else .ok (runStream cid chan afterId comm.members t0 inputs)

/-- `update_one`: replace the first document matching the predicate. -/
def updateFirst (p : α → Bool) (f : α → α) : List α → List α
  | [] => []
  | x :: xs =>
      match p x with
      | true => f x :: xs
      | false => x :: updateFirst p f xs

/-- The response model of the presence endpoints (`PresenceResponse`);
timestamps keep the underlying instant that `format_timestamp` renders. -/
structure PresenceResponse where
  user_id : String
  status : String
  custom_message : Option String
  last_seen : Nat
  updated_at : Nat
  deriving DecidableEq, Repr

/-- The default offline record `get_user_presence` inserts on first read. -/
def defaultPresence (uid : String) (now : Nat) : PresenceDoc :=
  { user_id := uid
    status := "offline"
    custom_message := none
    last_seen := some now
    updated_at := now }

/-- `GET /users/{user_id}/presence`: look the user up, read the presence
record, insert a default offline record when none exists, and build the
response — reading `presence["last_seen"]`, which raises `KeyError` when
the record was upserted without the field. -/
def get_user_presence (db : DB) (uid : String) (now : Nat) :
    Except HErr (PresenceResponse × DB) :=
  match findUser db uid with
  | none => .error .notFound
  | some user =>
      let record? := findPresence db user.id
      let db1 : DB :=
        match record? with
        | some _ => db
        | none =>
            { db with user_presence :=
                db.user_presence ++ [defaultPresence user.id now] }
      let record := record?.getD (defaultPresence user.id now)
      match record.last_seen with
      | none => .error .keyError
      | some ls =>
          .ok ({ user_id := record.user_id
                 status := record.status
                 custom_message := record.custom_message
                 last_seen := ls
                 updated_at := record.updated_at }, db1)

/-- The body of `PUT /users/{user_id}/presence`. -/
structure PresenceUpdate where
  status : String
  custom_message : Option String
  deriving DecidableEq, Repr

/-- The record written by the `$set` upsert over an existing record:
`status`, `custom_message` and `updated_at` always, `last_seen` only when
the new status is `online` (otherwise the stored value is kept). -/
def setRecord (r : PresenceDoc) (upd : PresenceUpdate) (now : Nat) :
    PresenceDoc :=
  { r with
      status := upd.status
      custom_message := upd.custom_message
      updated_at := now
      last_seen := if upd.status == "online" then some now else r.last_seen }

/-- The record created by the `$set` upsert when no record matched: the
filter key plus the `$set` fields — with no `last_seen` field at all when
the status is not `online`. -/
def newRecord (uid : String) (upd : PresenceUpdate) (now : Nat) :
    PresenceDoc :=
  { user_id := uid
    status := upd.status
    custom_message := upd.custom_message
    updated_at := now
    last_seen := if upd.status == "online" then some now else none }

/-- The `$set` upsert of `update_user_presence`. -/
def upsertPresence (db : DB) (uid : String) (upd : PresenceUpdate)
    (now : Nat) : DB :=
  match findPresence db uid with
  | some _ =>
      let updated := updateFirst (fun p => p.user_id == uid)
        (fun p => setRecord p upd now) db.user_presence
      { db with user_presence := updated }
  | none =>
      { db with user_presence :=
          db.user_presence ++ [newRecord uid upd now] }

/-- Python's `str.strip()`: drop ASCII whitespace from both ends. -/
def pyStrip (s : String) : String :=
  let ws := fun c : Char =>
    c == ' ' || c == '\t' || c == '\n' || c == '\r'
      || c == '\x0b' || c == '\x0c'
  String.mk (((s.toList.dropWhile ws).reverse.dropWhile ws).reverse)

/-- `PUT /users/{user_id}/presence`: header validation, user lookup,
owner check, upsert, then the read-back through `get_user_presence`. -/
def update_user_presence (db : DB) (uid : String) (upd : PresenceUpdate)
    (caller : String) (now : Nat) : Except HErr (PresenceResponse × DB) :=
  if ((pyStrip caller).length == 0 : Bool) then .error .badRequest
  else
    match findUser db uid with
    | none => .error .notFound
    | some user =>
        if user.id != caller then .error .forbidden
        else
          let db1 := upsertPresence db user.id upd now
          get_user_presence db1 user.id now

/-- Channel lookup of the typing endpoints: by `_id` when the textual id
is a valid `ObjectId`, otherwise by `_id` or by `name`, always scoped to
the community. -/
def findChannel (db : DB) (cid chanId : String) : Option ChannelDoc :=
  if isValidObjectId chanId then
    db.channels.find? fun ch => ch.id == chanId && ch.community_id == cid
  else
    db.channels.find? fun ch =>
      ch.community_id == cid && (ch.id == chanId || ch.name == chanId)

/-- Shared validation of both typing endpoints: community id well formed,
community exists, caller a member, channel exists. -/
def typingContext (db : DB) (cid chanId caller : String) :
    Except HErr ChannelDoc :=
  if !isValidObjectId cid then .error .badRequest
  else
    match findCommunity db cid with
    | none => .error .notFound
    | some comm =>
        if !comm.members.contains caller then .error .forbidden
        else
          match findChannel db cid chanId with
          | none => .error .notFound
          | some ch => .ok ch

/-- `POST .../typing`: `typing=true` upserts the record keyed on
(user, community, channel) with `started_at = now` and
`expires_at = now + 3`; `typing=false` deletes that key. -/
def send_typing_indicator (db : DB) (cid chanId : String)
    (typing : Bool) (caller : String) (now : Nat) : Except HErr DB :=
  match typingContext db cid chanId caller with
  | .error e => .error e
  | .ok ch =>
      match findUser db caller with
      | none => .error .notFound
      | some user =>
          if typing then
            let doc : TypingDoc :=
              { user_id := caller
                username := user.username.getD user.name
                avatar := user.avatar
                community_id := cid
                channel_id := ch.id
                started_at := now
                expires_at := now + 3 }
            let keyed := db.typing_indicators.filter fun t =>
              t.user_id == caller && t.community_id == cid
                && t.channel_id == ch.id
            match keyed with
            | [] =>
                .ok { db with typing_indicators :=
                    db.typing_indicators ++ [doc] }
            | _ =>
                let key : TypingDoc → Bool := fun t =>
                  t.user_id == caller && t.community_id == cid
                    && t.channel_id == ch.id
                let updated := updateFirst key (fun _ => doc)
                  db.typing_indicators
                .ok { db with typing_indicators := updated }
          else
            .ok { db with typing_indicators :=
                db.typing_indicators.eraseP fun t =>
                  t.user_id == caller && t.community_id == cid
                    && t.channel_id == ch.id }

/-- `GET .../typing`: after validation, delete every record of the whole
store whose `expires_at` is strictly before now (global lazy purge), then
return the remaining records of the channel, excluding the caller. -/
def get_typing_indicators (db : DB) (cid chanId caller : String)
    (now : Nat) : Except HErr (List TypingDoc × DB) :=
  match typingContext db cid chanId caller with
  | .error e => .error e
  | .ok ch =>
      let purged := db.typing_indicators.filter fun t => !(t.expires_at < now)
      let db1 := { db with typing_indicators := purged }
      let active := purged.filter fun t =>
        t.community_id == cid && t.channel_id == ch.id
          && t.user_id != caller
      .ok (active, db1)

/-! ### Event-kind classification -/

/-- Position of an event kind in the fixed per-cycle emission order:
messages, then presence, then membership (join/leave), then heartbeat. -/
def kindRank : EventData → Nat
  | .connected _ _ => 0
  | .message _ _ _ _ _ _ _ _ _ _ _ => 0
  | .presence _ _ _ _ _ => 1
  | .join _ _ _ _ => 2
  | .leave _ => 2
  | .heartbeat _ => 3
  | .error _ _ => 4

/-- The event's payload is a `message` dictionary. -/
def isMessageEvent (e : SSEEvent) : Bool :=
  match e.data with
  | .message _ _ _ _ _ _ _ _ _ _ _ => true
  | _ => false

/-- The event's payload is an `error` dictionary. -/
def isErrorEvent (e : SSEEvent) : Bool :=
  match e.data with
  | .error _ _ => true
  | _ => false

/-- The event's payload is a `presence` dictionary. -/
def isPresenceEvent (e : SSEEvent) : Bool :=
  match e.data with
  | .presence _ _ _ _ _ => true
  | _ => false

/-- The event's payload is a `user_join` or `user_leave` dictionary. -/
def isMembershipEvent (e : SSEEvent) : Bool :=
  match e.data with
  | .join _ _ _ _ => true
  | .leave _ => true
  | _ => false

/-- The event's payload is a `heartbeat` dictionary. -/
def isHeartbeatEvent (e : SSEEvent) : Bool :=
  match e.data with
  | .heartbeat _ => true
  | _ => false

/-- The event is the `user_join` event of a given user. -/
def isJoinEventFor (uid : String) (e : SSEEvent) : Bool :=
  match e.data with
  | .join u _ _ _ => u == uid
  | _ => false

/-- The event is the `user_leave` event of a given user. -/
def isLeaveEventFor (uid : String) (e : SSEEvent) : Bool :=
  match e.data with
  | .leave u => u == uid
  | _ => false

/-- The event is the `presence` event of a given record. -/
def isPresenceEventFor (p : PresenceDoc) (e : SSEEvent) : Bool :=
  match e.data with
  | .presence u _ _ _ upd => u == p.user_id && upd == p.updated_at
  | _ => false

/-- The event is the `message` event of a given message id. -/
def isMessageEventFor (mid : Nat) (e : SSEEvent) : Bool :=
  match e.data with
  | .message i _ _ _ _ _ _ _ _ _ _ => i == mid
  | _ => false

/-- The creation time carried by a `message` payload, if any. -/
def msgCreated (e : SSEEvent) : Option Nat :=
  match e.data with
  | .message _ _ _ _ _ _ _ c _ _ _ => some c
  | _ => none

/-- Creation times of the message events of a stream, in emission order. -/
def messageTimes (l : List SSEEvent) : List Nat :=
  l.filterMap msgCreated

instance : IsTotal MessageDoc createdLE :=
  ⟨fun a b => Nat.le_total a.created_at b.created_at⟩

instance : IsTrans MessageDoc createdLE :=
  ⟨fun _ _ _ hab hbc => Nat.le_trans hab hbc⟩

/-- Clocks sampled by successive cycles never run backwards, starting
from the connection's initial checkpoint. -/
def clocksMono : Nat → List (DB × Nat) → Prop
  | _, [] => True
  | lc, (_, now) :: rest => lc ≤ now ∧ clocksMono now rest

/-! ### Fixtures -/

/-- A well-formed community `ObjectId`. -/
def cidW : String := "aaaaaaaaaaaaaaaaaaaaaaaa"

/-- A well-formed channel `ObjectId`. -/
def chW : String := "bbbbbbbbbbbbbbbbbbbbbbbb"

def userAlice : UserDoc :=
  { id := "u1", name := "Alice", username := some "alice", avatar := none }

def userCarol : UserDoc :=
  { id := "u3", name := "Carol", username := none, avatar := none }

def msgHello : MessageDoc :=
  { id := 1, community_id := cidW, channel_id := none, author_id := "u1",
    content := "hello", mtype := "message", reply_to := none, created_at := 5,
    updated_at := none, is_edited := false, edited_at := none }

def presAlice : PresenceDoc :=
  { user_id := "u1", status := "online", custom_message := none,
    last_seen := some 6, updated_at := 6 }

/-- A store whose single cycle produces one event of every kind:
one new message, one presence change, one join (`u3`) and one leave
(`u2`, relative to the previous snapshot), plus the heartbeat. -/
def dbW : DB :=
  { posts := [msgHello], users := [userAlice, userCarol],
    user_presence := [presAlice],
    communities := [{ id := cidW, members := ["u1", "u3"] }],
    channels := [], typing_indicators := [] }

def evsW : List SSEEvent :=
  [buildMessageEvent dbW cidW msgHello,
   buildPresenceEvent cidW presAlice 6,
   buildJoinEvent cidW "u3" userCarol 10,
   buildLeaveEvent cidW "u2" 10,
   heartbeatEvent cidW 10]

def userDave : UserDoc :=
  { id := "D", name := "Dave", username := none, avatar := none }

/-- A store for the membership-diff scenario: current members
`{B, C, D}`, to be diffed against a previous snapshot `{A, B, C}`. -/
def dbDiff : DB :=
  { posts := [], users := [userDave], user_presence := [],
    communities := [{ id := cidW, members := ["B", "C", "D"] }],
    channels := [], typing_indicators := [] }

/-- The store after the community document has been deleted mid-stream:
the next cycle's membership re-read raises. -/
def dbGone : DB :=
  { posts := [], users := [userAlice, userCarol], user_presence := [],
    communities := [], channels := [], typing_indicators := [] }

/-- A store in which member `u9` has joined (relative to a previous
snapshot `["u1"]`) but has no `users` document. -/
def dbSilent : DB :=
  { posts := [], users := [userAlice], user_presence := [],
    communities := [{ id := cidW, members := ["u1", "u9"] }],
    channels := [], typing_indicators := [] }

/-- A message whose author id matches no user document. -/
def msgGhost : MessageDoc :=
  { id := 2, community_id := cidW, channel_id := none, author_id := "ghost",
    content := "boo", mtype := "message", reply_to := none, created_at := 4,
    updated_at := none, is_edited := false, edited_at := none }

/-- A store holding a message from a deleted author. -/
def dbGhost : DB :=
  { posts := [msgGhost], users := [], user_presence := [],
    communities := [{ id := cidW, members := ["u1"] }],
    channels := [], typing_indicators := [] }

def userPat : UserDoc :=
  { id := "p1", name := "Pat", username := none, avatar := none }

/-- A store with a user who has never written a presence record. -/
def dbPat : DB :=
  { posts := [], users := [userPat], user_presence := [],
    communities := [], channels := [], typing_indicators := [] }

instance {ε α : Type} [DecidableEq ε] [DecidableEq α] :
    DecidableEq (Except ε α) := fun x y =>
  match x, y with
  | .ok a, .ok b =>
      if h : a = b then isTrue (by rw [h])
      else isFalse (by intro hc; cases hc; exact h rfl)
  | .error a, .error b =>
      if h : a = b then isTrue (by rw [h])
      else isFalse (by intro hc; cases hc; exact h rfl)
  | .ok _, .error _ => isFalse (by intro hc; cases hc)
  | .error _, .ok _ => isFalse (by intro hc; cases hc)

def userTu : UserDoc :=
  { id := "tu", name := "Tucker", username := some "tuser", avatar := none }

def commT : CommunityDoc := { id := cidW, members := ["tu", "tv"] }

def chanT : ChannelDoc :=
  { id := chW, community_id := cidW, name := "general" }

/-- The typing store before anyone types. -/
def dbT0 : DB :=
  { posts := [], users := [userTu], user_presence := [],
    communities := [commT], channels := [chanT], typing_indicators := [] }

/-- The record `tu` starts typing at time 0: expires at 3. -/
def typT : TypingDoc :=
  { user_id := "tu", username := "tuser", avatar := none,
    community_id := cidW, channel_id := chW, started_at := 0,
    expires_at := 3 }

/-- The typing store right after `tu` started typing at time 0. -/
def dbT : DB :=
  { posts := [], users := [userTu], user_presence := [],
    communities := [commT], channels := [chanT],
    typing_indicators := [typT] }

/-- The n-th fixture message: id and creation time both `n`. -/
def mkMsg (n : Nat) : MessageDoc :=
  { id := n, community_id := cidW, channel_id := none, author_id := "u1",
    content := "m", mtype := "message", reply_to := none, created_at := n,
    updated_at := none, is_edited := false, edited_at := none }

/-- A store holding 51 messages created at times 1..51 — one more than
the per-cycle ceiling. -/
def dbBig : DB :=
  { posts := (List.range 51).map fun i => mkMsg (i + 1),
    users := [], user_presence := [],
    communities := [{ id := cidW, members := ["u1"] }],
    channels := [], typing_indicators := [] }

/-! ### Rank of each emission block -/

theorem kindRank_buildMessageEvent (db : DB) (cid : String) (m : MessageDoc) :
    kindRank (buildMessageEvent db cid m).data = 0 := rfl

theorem emitPresence_ok_rank (cid : String) :
    ∀ ps evs, emitPresence cid ps = .ok evs →
      ∀ e ∈ evs, kindRank e.data = 1 := by
  intro ps
  induction ps with
  | nil =>
      intro evs h e he
      simp only [emitPresence] at h
      cases h
      simp at he
  | cons p rest ih =>
      intro evs h e he
      simp only [emitPresence] at h
      cases hls : p.last_seen with
      | none => rw [hls] at h; cases h
      | some ls =>
          rw [hls] at h
          cases hrec : emitPresence cid rest with
          | ok evs2 =>
              rw [hrec] at h
              cases h
              rcases List.mem_cons.mp he with rfl | hmem
              · rfl
              · exact ih evs2 hrec e hmem
          | error pm => rw [hrec] at h; cases h

theorem emitPresence_err_rank (cid : String) :
    ∀ ps pre msg, emitPresence cid ps = .error (pre, msg) →
      ∀ e ∈ pre, kindRank e.data = 1 := by
  intro ps
  induction ps with
  | nil =>
      intro pre msg h e he
      simp only [emitPresence] at h
      cases h
  | cons p rest ih =>
      intro pre msg h e he
      simp only [emitPresence] at h
      cases hls : p.last_seen with
      | none =>
          rw [hls] at h
          cases h
          simp at he
      | some ls =>
          rw [hls] at h
          cases hrec : emitPresence cid rest with
          | ok evs2 => rw [hrec] at h; cases h
          | error pm =>
              obtain ⟨pre2, msg2⟩ := pm
              rw [hrec] at h
              cases h
              rcases List.mem_cons.mp he with rfl | hmem
              · rfl
              · exact ih _ _ hrec e hmem

theorem buildJoinEvents_rank (db : DB) (cid : String) (joined : List String)
    (now : Nat) : ∀ e ∈ buildJoinEvents db cid joined now,
      kindRank e.data = 2 := by
  intro e he
  rcases List.mem_filterMap.mp he with ⟨uid, _, hu⟩
  cases hfind : findUser db uid with
  | none => rw [hfind] at hu; cases hu
  | some u =>
      rw [hfind] at hu
      cases hu
      rfl

/-- The event list of a successful cycle, made explicit. -/
theorem runCycle_ok_shape (db : DB) (cid : String) (chan : Option String)
    (afterId : Option Nat) (lastCheck : Nat) (prevMembers : List String)
    (now : Nat) (evs : List SSEEvent) (lc : Nat) (mems : List String)
    (h : runCycle db cid chan afterId lastCheck prevMembers now
      = .ok evs lc mems) :
    ∃ presEvents comm,
      emitPresence cid (queryPresence db prevMembers lastCheck)
          = .ok presEvents
        ∧ findCommunity db cid = some comm
        ∧ lc = now ∧ mems = comm.members
        ∧ evs = (queryNewMessages db cid chan afterId lastCheck).map
              (buildMessageEvent db cid)
            ++ presEvents
            ++ buildJoinEvents db cid
              (membershipJoins prevMembers comm.members) now
            ++ (membershipLeaves prevMembers comm.members).map
              (fun uid => buildLeaveEvent cid uid now)
            ++ [heartbeatEvent cid now] := by
  simp only [runCycle] at h
  cases hpres : emitPresence cid (queryPresence db prevMembers lastCheck) with
  | error pm => rw [hpres] at h; cases h
  | ok presEvents =>
      rw [hpres] at h
      cases hcomm : findCommunity db cid with
      | none => rw [hcomm] at h; cases h
      | some comm =>
          rw [hcomm] at h
          cases h
          exact ⟨presEvents, comm, rfl, rfl, rfl, rfl, by
            simp [List.append_assoc]⟩

/-- Ranks never decrease along the event list of a successful cycle. -/
theorem runCycle_ok_rank_pairwise (db : DB) (cid : String)
    (chan : Option String) (afterId : Option Nat) (lastCheck : Nat)
    (prevMembers : List String) (now : Nat) (evs : List SSEEvent) (lc : Nat)
    (mems : List String)
    (h : runCycle db cid chan afterId lastCheck prevMembers now
      = .ok evs lc mems) :
    List.Pairwise (fun a b => kindRank a.data ≤ kindRank b.data) evs := by
  obtain ⟨presEvents, comm, hpres, _, _, _, hevs⟩ :=
    runCycle_ok_shape db cid chan afterId lastCheck prevMembers now evs lc
      mems h
  subst hevs
  have hmsg : ∀ e ∈ (queryNewMessages db cid chan afterId lastCheck).map
      (buildMessageEvent db cid), kindRank e.data = 0 := by
    intro e he
    rcases List.mem_map.mp he with ⟨m, _, rfl⟩
    rfl
  have hp : ∀ e ∈ presEvents, kindRank e.data = 1 :=
    emitPresence_ok_rank cid _ _ hpres
  have hj : ∀ e ∈ buildJoinEvents db cid
      (membershipJoins prevMembers comm.members) now, kindRank e.data = 2 :=
    buildJoinEvents_rank db cid _ now
  have hl : ∀ e ∈ (membershipLeaves prevMembers comm.members).map
      (fun uid => buildLeaveEvent cid uid now), kindRank e.data = 2 := by
    intro e he
    rcases List.mem_map.mp he with ⟨uid, _, rfl⟩
    rfl
  have hh : ∀ e ∈ [heartbeatEvent cid now], kindRank e.data = 3 := by
    intro e he
    rcases List.mem_singleton.mp he with rfl
    rfl
  -- assemble: each block is constant-rank and the ranks increase blockwise
  refine List.pairwise_append.mpr ⟨?_, ?_, ?_⟩
  · refine List.pairwise_append.mpr ⟨?_, ?_, ?_⟩
    · refine List.pairwise_append.mpr ⟨?_, ?_, ?_⟩
      · refine List.pairwise_append.mpr ⟨?_, ?_, ?_⟩
        · exact List.pairwise_of_forall_mem_list fun a ha b hb => by
            rw [hmsg a ha, hmsg b hb]
        · exact List.pairwise_of_forall_mem_list fun a ha b hb => by
            rw [hp a ha, hp b hb]
        · intro a ha b hb; rw [hmsg a ha, hp b hb]; omega
      · exact List.pairwise_of_forall_mem_list fun a ha b hb => by
          rw [hj a ha, hj b hb]
      · intro a ha b hb
        rcases List.mem_append.mp ha with h1 | h1
        · rw [hmsg a h1, hj b hb]; omega
        · rw [hp a h1, hj b hb]; omega
    · exact List.pairwise_of_forall_mem_list fun a ha b hb => by
        rw [hl a ha, hl b hb]
    · intro a ha b hb
      rcases List.mem_append.mp ha with h1 | h1
      · rcases List.mem_append.mp h1 with h2 | h2
        · rw [hmsg a h2, hl b hb]; omega
        · rw [hp a h2, hl b hb]; omega
      · rw [hj a h1, hl b hb]
  · exact List.pairwise_of_forall_mem_list fun a ha b hb => by
      rcases List.mem_singleton.mp ha with rfl
      rcases List.mem_singleton.mp hb with rfl
      rfl
  · intro a ha b hb
    rcases List.mem_singleton.mp hb with rfl
    rw [hh (heartbeatEvent cid now) (List.mem_singleton.mpr rfl)]
    rcases List.mem_append.mp ha with h1 | h1
    · rcases List.mem_append.mp h1 with h2 | h2
      · rcases List.mem_append.mp h2 with h3 | h3
        · rw [hmsg a h3]; omega
        · rw [hp a h3]; omega
      · rw [hj a h2]; omega
    · rw [hl a h1]; omega

theorem kindRank_of_isMessageEvent {e : SSEEvent}
    (h : isMessageEvent e = true) : kindRank e.data = 0 := by
  cases e with
  | mk et d cid ch ts => cases d <;> simp [isMessageEvent, kindRank] at h ⊢

theorem kindRank_of_isPresenceEvent {e : SSEEvent}
    (h : isPresenceEvent e = true) : kindRank e.data = 1 := by
  cases e with
  | mk et d cid ch ts => cases d <;> simp [isPresenceEvent, kindRank] at h ⊢

theorem kindRank_of_isMembershipEvent {e : SSEEvent}
    (h : isMembershipEvent e = true) : kindRank e.data = 2 := by
  cases e with
  | mk et d cid ch ts => cases d <;> simp [isMembershipEvent, kindRank] at h ⊢

theorem kindRank_of_isHeartbeatEvent {e : SSEEvent}
    (h : isHeartbeatEvent e = true) : kindRank e.data = 3 := by
  cases e with
  | mk et d cid ch ts => cases d <;> simp [isHeartbeatEvent, kindRank] at h ⊢

/-- Rank order forces emission order within a successful cycle. -/
theorem runCycle_ok_rank_lt_index (db : DB) (cid : String)
    (chan : Option String) (afterId : Option Nat) (lastCheck : Nat)
    (prevMembers : List String) (now : Nat) (evs : List SSEEvent) (lc : Nat)
    (mems : List String)
    (h : runCycle db cid chan afterId lastCheck prevMembers now
      = .ok evs lc mems)
    (i j : Nat) (hi : i < evs.length) (hj : j < evs.length)
    (hlt : kindRank (evs.get ⟨i, hi⟩).data < kindRank (evs.get ⟨j, hj⟩).data) :
    i < j := by
  have hp := runCycle_ok_rank_pairwise db cid chan afterId lastCheck
    prevMembers now evs lc mems h
  rw [List.pairwise_iff_get] at hp
  by_contra hij
  push_neg at hij
  rcases Nat.lt_or_ge j i with hji | hge
  · exact absurd hlt (Nat.not_lt.mpr (hp ⟨j, hj⟩ ⟨i, hi⟩ hji))
  · have : i = j := Nat.le_antisymm hge hij
    subst this
    exact Nat.lt_irrefl _ hlt

/-- C1: within one successful polling cycle of the community update
stream, every message event precedes every presence event, every presence
event precedes every join/leave event, and message, presence and
membership events all precede the cycle's heartbeat event. -/
theorem cycle_emission_order (db : DB) (cid : String) (chan : Option String)
    (afterId : Option Nat) (lastCheck : Nat) (prevMembers : List String)
    (now : Nat) (evs : List SSEEvent) (lc : Nat) (mems : List String)
    (h : runCycle db cid chan afterId lastCheck prevMembers now
      = .ok evs lc mems)
    (i j : Nat) (hi : i < evs.length) (hj : j < evs.length) :
    (isMessageEvent (evs.get ⟨i, hi⟩) = true
        → isPresenceEvent (evs.get ⟨j, hj⟩) = true → i < j)
      ∧ (isPresenceEvent (evs.get ⟨i, hi⟩) = true
        → isMembershipEvent (evs.get ⟨j, hj⟩) = true → i < j)
      ∧ (isMessageEvent (evs.get ⟨i, hi⟩) = true
          ∨ isPresenceEvent (evs.get ⟨i, hi⟩) = true
          ∨ isMembershipEvent (evs.get ⟨i, hi⟩) = true
        → isHeartbeatEvent (evs.get ⟨j, hj⟩) = true → i < j) := by
  refine ⟨fun hm hp => ?_, fun hp hmb => ?_, fun hk hh => ?_⟩
  · exact runCycle_ok_rank_lt_index db cid chan afterId lastCheck prevMembers
      now evs lc mems h i j hi hj (by
        rw [kindRank_of_isMessageEvent hm, kindRank_of_isPresenceEvent hp]
        omega)
  · exact runCycle_ok_rank_lt_index db cid chan afterId lastCheck prevMembers
      now evs lc mems h i j hi hj (by
        rw [kindRank_of_isPresenceEvent hp, kindRank_of_isMembershipEvent hmb]
        omega)
  · refine runCycle_ok_rank_lt_index db cid chan afterId lastCheck prevMembers
      now evs lc mems h i j hi hj ?_
    rw [kindRank_of_isHeartbeatEvent hh]
    rcases hk with hm | hp | hmb
    · rw [kindRank_of_isMessageEvent hm]; omega
    · rw [kindRank_of_isPresenceEvent hp]; omega
    · rw [kindRank_of_isMembershipEvent hmb]; omega

/-- Witness for C1: a concrete cycle producing one event of each kind;
its message event (index 0) precedes its presence event (index 1). -/
theorem cycle_emission_order_witness :
    runCycle dbW cidW none none 0 ["u1", "u2"] 10 = .ok evsW 10 ["u1", "u3"]
      ∧ (0 : Nat) < 1 := by
  have h : runCycle dbW cidW none none 0 ["u1", "u2"] 10
      = .ok evsW 10 ["u1", "u3"] := by decide
  refine ⟨h, ?_⟩
  exact (cycle_emission_order dbW cidW none none 0 ["u1", "u2"] 10 evsW 10
    ["u1", "u3"] h 0 1 (by decide) (by decide)).1 (by decide) (by decide)

/-- C4: the stream's membership delta is the two set differences —
an id is reported as a join exactly when it is a current member and was
not in the previous snapshot, and as a leave exactly when it was in the
previous snapshot and is not a current member; on the concrete snapshots
`{A, B, C}` and `{B, C, D}` the cycle emits exactly a join for `D`, a
leave for `A`, and the heartbeat — nothing for `B` or `C`. -/
theorem membership_delta_set_difference :
    (∀ prevMembers curMembers : List String, ∀ x : String,
      x ∈ membershipJoins prevMembers curMembers
        ↔ x ∈ curMembers ∧ x ∉ prevMembers)
      ∧ (∀ prevMembers curMembers : List String, ∀ x : String,
        x ∈ membershipLeaves prevMembers curMembers
          ↔ x ∈ prevMembers ∧ x ∉ curMembers)
      ∧ runCycle dbDiff cidW none none 0 ["A", "B", "C"] 10
          = .ok [buildJoinEvent cidW "D" userDave 10,
              buildLeaveEvent cidW "A" 10, heartbeatEvent cidW 10]
            10 ["B", "C", "D"] := by
  refine ⟨?_, ?_, by decide⟩
  · intro prevMembers curMembers x
    simp [membershipJoins, List.mem_filter, List.mem_dedup]
  · intro prevMembers curMembers x
    simp [membershipLeaves, List.mem_filter, List.mem_dedup]

/-- C7: on a successfully opened stream (well-formed id, community found,
caller a member) the first emitted event is the initial connection event,
whose payload announces `connected`; every message, presence, membership
or heartbeat event sits strictly after it. -/
theorem stream_connected_event_first (db0 : DB) (cid : String)
    (chan : Option String) (afterId : Option Nat) (caller : String)
    (t0 : Nat) (inputs : List (DB × Nat)) (out : List SSEEvent)
    (h : stream_community_updates db0 cid chan afterId caller t0 inputs
      = .ok out) :
    out.head? = some (connectionEvent cid chan t0)
      ∧ (connectionEvent cid chan t0).data
        = .connected "connected" "Connected to community stream"
      ∧ ∀ i (hi : i < out.length),
          (isMessageEvent (out.get ⟨i, hi⟩) = true
            ∨ isPresenceEvent (out.get ⟨i, hi⟩) = true
            ∨ isMembershipEvent (out.get ⟨i, hi⟩) = true
            ∨ isHeartbeatEvent (out.get ⟨i, hi⟩) = true)
          → 0 < i := by
  simp only [stream_community_updates] at h
  by_cases hv : isValidObjectId cid
  · rw [hv] at h
    simp only [Bool.not_true, Bool.false_eq_true, if_false] at h
    cases hcomm : findCommunity db0 cid with
    | none => rw [hcomm] at h; cases h
    | some comm =>
        rw [hcomm] at h
        by_cases hmem : comm.members.contains caller = true
        · simp only [hmem, Bool.not_true, Bool.false_eq_true, if_false] at h
          cases h
          refine ⟨rfl, rfl, ?_⟩
          intro i hi hk
          cases i with
          | zero =>
              exfalso
              rcases hk with hk | hk | hk | hk <;> cases hk
          | succ n => exact Nat.succ_pos n
        · rw [Bool.not_eq_true] at hmem
          simp only [hmem, Bool.not_false, if_true] at h
          cases h
  · rw [Bool.not_eq_true] at hv
    rw [hv] at h
    cases h

/-- Witness for C7: opening the stream on the concrete store succeeds and
its first event is the connection event. -/
theorem stream_connected_event_first_witness :
    stream_community_updates dbW cidW none none "u1" 0 [(dbW, 10)]
        = .ok (runStream cidW none none ["u1", "u3"] 0 [(dbW, 10)])
      ∧ (runStream cidW none none ["u1", "u3"] 0 [(dbW, 10)]).head?
        = some (connectionEvent cidW none 0) := by
  have h : stream_community_updates dbW cidW none none "u1" 0 [(dbW, 10)]
      = .ok (runStream cidW none none ["u1", "u3"] 0 [(dbW, 10)]) := by
    rfl
  exact ⟨h, (stream_connected_event_first dbW cidW none none "u1" 0
    [(dbW, 10)] _ h).1⟩

theorem isErrorEvent_false_of_rank_le {e : SSEEvent}
    (h : kindRank e.data ≤ 3) : isErrorEvent e = false := by
  cases e with
  | mk et d cid ch ts =>
      cases d <;> simp [isErrorEvent, kindRank] at h ⊢

/-- A successful cycle emits only events of rank at most 3. -/
theorem runCycle_ok_rank_le (db : DB) (cid : String) (chan : Option String)
    (afterId : Option Nat) (lastCheck : Nat) (prevMembers : List String)
    (now : Nat) (evs : List SSEEvent) (lc : Nat) (mems : List String)
    (h : runCycle db cid chan afterId lastCheck prevMembers now
      = .ok evs lc mems) :
    ∀ e ∈ evs, kindRank e.data ≤ 3 := by
  obtain ⟨presEvents, comm, hpres, _, _, _, hevs⟩ :=
    runCycle_ok_shape db cid chan afterId lastCheck prevMembers now evs lc
      mems h
  subst hevs
  intro e he
  rcases List.mem_append.mp he with h1 | h1
  · rcases List.mem_append.mp h1 with h2 | h2
    · rcases List.mem_append.mp h2 with h3 | h3
      · rcases List.mem_append.mp h3 with h4 | h4
        · rcases List.mem_map.mp h4 with ⟨m, _, rfl⟩
          simp [buildMessageEvent, kindRank]
        · rw [emitPresence_ok_rank cid _ _ hpres e h4]; omega
      · rw [buildJoinEvents_rank db cid _ now e h3]; omega
    · rcases List.mem_map.mp h2 with ⟨uid, _, rfl⟩
      simp [buildLeaveEvent, kindRank]
  · rcases List.mem_singleton.mp h1 with rfl
    simp [heartbeatEvent, kindRank]

/-- The events already yielded by a failing cycle, made explicit: the
message events, then a run of presence events. -/
theorem runCycle_err_shape (db : DB) (cid : String) (chan : Option String)
    (afterId : Option Nat) (lastCheck : Nat) (prevMembers : List String)
    (now : Nat) (pre : List SSEEvent) (msg : String)
    (h : runCycle db cid chan afterId lastCheck prevMembers now
      = .err pre msg) :
    ∃ presPart,
      pre = (queryNewMessages db cid chan afterId lastCheck).map
          (buildMessageEvent db cid) ++ presPart
        ∧ ∀ e ∈ presPart, kindRank e.data = 1 := by
  simp only [runCycle] at h
  cases hpres : emitPresence cid (queryPresence db prevMembers lastCheck) with
  | error pm =>
      obtain ⟨pre0, msg0⟩ := pm
      rw [hpres] at h
      cases h
      exact ⟨pre0, rfl, emitPresence_err_rank cid _ _ _ hpres⟩
  | ok presEvents =>
      rw [hpres] at h
      cases hcomm : findCommunity db cid with
      | none =>
          rw [hcomm] at h
          cases h
          exact ⟨presEvents, rfl, emitPresence_ok_rank cid _ _ hpres⟩
      | some comm => rw [hcomm] at h; cases h

/-- No event yielded before the exception of a failing cycle is an error
event. -/
theorem runCycle_err_no_error (db : DB) (cid : String) (chan : Option String)
    (afterId : Option Nat) (lastCheck : Nat) (prevMembers : List String)
    (now : Nat) (pre : List SSEEvent) (msg : String)
    (h : runCycle db cid chan afterId lastCheck prevMembers now
      = .err pre msg) :
    ∀ e ∈ pre, isErrorEvent e = false := by
  obtain ⟨presPart, hpre, hrank⟩ :=
    runCycle_err_shape db cid chan afterId lastCheck prevMembers now pre msg h
  subst hpre
  intro e he
  rcases List.mem_append.mp he with h1 | h1
  · rcases List.mem_map.mp h1 with ⟨m, _, rfl⟩
    exact isErrorEvent_false_of_rank_le (by simp [buildMessageEvent, kindRank])
  · exact isErrorEvent_false_of_rank_le (by rw [hrank e h1]; omega)

/-- C5: if any exception is raised during a polling cycle, the loop
yields exactly one error event — carrying the fixed human-readable
message — as its very last event: every event before it is a non-error
event and nothing at all follows it. -/
theorem stream_error_fail_fast (cid : String) (chan : Option String)
    (afterId : Option Nat) :
    ∀ (inputs : List (DB × Nat)) (lastCheck : Nat) (mems : List String),
      (streamLoop cid chan afterId inputs lastCheck mems).any isErrorEvent
          = true →
      ∃ pre e,
        streamLoop cid chan afterId inputs lastCheck mems = pre ++ [e]
          ∧ (∀ x ∈ pre, isErrorEvent x = false)
          ∧ isErrorEvent e = true
          ∧ ∃ emsg, e.data = .error emsg "Stream error occurred" := by
  intro inputs
  induction inputs with
  | nil =>
      intro lastCheck mems hany
      simp [streamLoop] at hany
  | cons p rest ih =>
      obtain ⟨db, now⟩ := p
      intro lastCheck mems hany
      cases hcyc : runCycle db cid chan afterId lastCheck mems now with
      | ok evs lc2 mems2 =>
          have hfree : ∀ e ∈ evs, isErrorEvent e = false := fun e he =>
            isErrorEvent_false_of_rank_le
              (runCycle_ok_rank_le db cid chan afterId lastCheck mems now evs
                lc2 mems2 hcyc e he)
          simp only [streamLoop, hcyc] at hany ⊢
          have htail : (streamLoop cid chan afterId rest lc2 mems2).any
              isErrorEvent = true := by
            rcases List.any_eq_true.mp hany with ⟨x, hx, hxe⟩
            rcases List.mem_append.mp hx with hx1 | hx1
            · rw [hfree x hx1] at hxe; cases hxe
            · exact List.any_eq_true.mpr ⟨x, hx1, hxe⟩
          obtain ⟨pre, e, heq, hpre, he, hmsg⟩ := ih lc2 mems2 htail
          refine ⟨evs ++ pre, e, ?_, ?_, he, hmsg⟩
          · rw [heq, List.append_assoc]
          · intro x hx
            rcases List.mem_append.mp hx with hx1 | hx1
            · exact hfree x hx1
            · exact hpre x hx1
      | err pre0 msg =>
          simp only [streamLoop, hcyc]
          exact ⟨pre0, errorEvent cid msg now, rfl,
            runCycle_err_no_error db cid chan afterId lastCheck mems now pre0
              msg hcyc,
            rfl, msg, rfl⟩

/-- Witness for C5: a run whose second cycle fails because the community
document has disappeared. -/
theorem stream_error_fail_fast_witness :
    (streamLoop cidW none none [(dbW, 10), (dbGone, 20)] 0 ["u1", "u2"]).any
        isErrorEvent = true
      ∧ ∃ pre e,
          streamLoop cidW none none [(dbW, 10), (dbGone, 20)] 0 ["u1", "u2"]
              = pre ++ [e]
            ∧ (∀ x ∈ pre, isErrorEvent x = false)
            ∧ isErrorEvent e = true
            ∧ ∃ emsg, e.data = .error emsg "Stream error occurred" := by
  refine ⟨by decide, ?_⟩
  exact stream_error_fail_fast cidW none none [(dbW, 10), (dbGone, 20)] 0
    ["u1", "u2"] (by decide)

/-- Every record accepted by the presence loop yields its event. -/
theorem emitPresence_ok_mem (cid : String) :
    ∀ ps evs, emitPresence cid ps = .ok evs →
      ∀ p ∈ ps, ∃ ls, p.last_seen = some ls
        ∧ buildPresenceEvent cid p ls ∈ evs := by
  intro ps
  induction ps with
  | nil =>
      intro evs h p hp
      simp at hp
  | cons q rest ih =>
      intro evs h p hp
      simp only [emitPresence] at h
      cases hls : q.last_seen with
      | none => rw [hls] at h; cases h
      | some ls =>
          rw [hls] at h
          cases hrec : emitPresence cid rest with
          | ok evs2 =>
              rw [hrec] at h
              cases h
              rcases List.mem_cons.mp hp with rfl | hmem
              · exact ⟨ls, hls, List.mem_cons_self _ _⟩
              · obtain ⟨ls2, hls2, hin⟩ := ih evs2 hrec p hmem
                exact ⟨ls2, hls2, List.mem_cons_of_mem _ hin⟩
          | error pm => rw [hrec] at h; cases h

theorem isJoinEventFor_false_of_rank_one {uid : String} {e : SSEEvent}
    (h : kindRank e.data = 1) : isJoinEventFor uid e = false := by
  cases e with
  | mk et d cid ch ts =>
      cases d <;> simp [isJoinEventFor, kindRank] at h ⊢

/-- C6 (amended): in a successful cycle, every detected new message,
every detected presence change, every detected leave, and every detected
join whose user document still resolves produces its event; but a
detected join whose user document is missing is dropped — no event of the
cycle mentions it (and the generator contains no logging at all). -/
theorem detected_change_emitted (db : DB) (cid : String)
    (chan : Option String) (afterId : Option Nat) (lastCheck : Nat)
    (prevMembers : List String) (now : Nat) (evs : List SSEEvent) (lc : Nat)
    (mems : List String)
    (h : runCycle db cid chan afterId lastCheck prevMembers now
      = .ok evs lc mems) :
    (∀ m ∈ queryNewMessages db cid chan afterId lastCheck,
        buildMessageEvent db cid m ∈ evs)
      ∧ (∀ p ∈ queryPresence db prevMembers lastCheck,
          ∃ e ∈ evs, isPresenceEventFor p e = true)
      ∧ (∀ uid ∈ membershipJoins prevMembers mems, ∀ u,
          findUser db uid = some u → ∃ e ∈ evs, isJoinEventFor uid e = true)
      ∧ (∀ uid ∈ membershipLeaves prevMembers mems,
          ∃ e ∈ evs, isLeaveEventFor uid e = true)
      ∧ (∀ uid ∈ membershipJoins prevMembers mems,
          findUser db uid = none → ∀ e ∈ evs, isJoinEventFor uid e = false)
    := by
  obtain ⟨presEvents, comm, hpres, hcomm, hlc, hmems, hevs⟩ :=
    runCycle_ok_shape db cid chan afterId lastCheck prevMembers now evs lc
      mems h
  subst hmems
  subst hevs
  refine ⟨?_, ?_, ?_, ?_, ?_⟩
  · intro m hm
    exact List.mem_append_left _ (List.mem_append_left _
      (List.mem_append_left _ (List.mem_append_left _
        (List.mem_map_of_mem _ hm))))
  · intro p hp
    obtain ⟨ls, hls, hin⟩ := emitPresence_ok_mem cid _ _ hpres p hp
    refine ⟨buildPresenceEvent cid p ls, ?_, ?_⟩
    · exact List.mem_append_left _ (List.mem_append_left _
        (List.mem_append_left _ (List.mem_append_right _ hin)))
    · simp [isPresenceEventFor, buildPresenceEvent]
  · intro uid huid u hu
    refine ⟨buildJoinEvent cid uid u now, ?_, ?_⟩
    · refine List.mem_append_left _ (List.mem_append_left _
        (List.mem_append_right _ ?_))
      exact List.mem_filterMap.mpr ⟨uid, huid, by rw [hu]; rfl⟩
    · simp [isJoinEventFor, buildJoinEvent]
  · intro uid huid
    refine ⟨buildLeaveEvent cid uid now, ?_, ?_⟩
    · exact List.mem_append_left _ (List.mem_append_right _
        (List.mem_map_of_mem _ huid))
    · simp [isLeaveEventFor, buildLeaveEvent]
  · intro uid huid hnone e he
    rcases List.mem_append.mp he with h1 | h1
    · rcases List.mem_append.mp h1 with h2 | h2
      · rcases List.mem_append.mp h2 with h3 | h3
        · rcases List.mem_append.mp h3 with h4 | h4
          · rcases List.mem_map.mp h4 with ⟨m, _, rfl⟩
            rfl
          · exact isJoinEventFor_false_of_rank_one
              (emitPresence_ok_rank cid _ _ hpres e h4)
        · rcases List.mem_filterMap.mp h3 with ⟨uid2, _, hu2⟩
          cases hfind : findUser db uid2 with
          | none => rw [hfind] at hu2; cases hu2
          | some u2 =>
              rw [hfind] at hu2
              cases hu2
              simp only [isJoinEventFor, buildJoinEvent]
              rw [beq_eq_false_iff_ne]
              intro hne
              subst hne
              rw [hnone] at hfind
              cases hfind
      · rcases List.mem_map.mp h2 with ⟨uid2, _, rfl⟩
        rfl
    · rcases List.mem_singleton.mp h1 with rfl
      rfl

/-- Witness for C6 (amended): in the concrete one-of-each cycle the
detected leave of `u2` is emitted. -/
theorem detected_change_emitted_witness :
    runCycle dbW cidW none none 0 ["u1", "u2"] 10 = .ok evsW 10 ["u1", "u3"]
      ∧ ∃ e ∈ evsW, isLeaveEventFor "u2" e = true := by
  have h : runCycle dbW cidW none none 0 ["u1", "u2"] 10
      = .ok evsW 10 ["u1", "u3"] := by decide
  refine ⟨h, ?_⟩
  exact (detected_change_emitted dbW cidW none none 0 ["u1", "u2"] 10 evsW 10
    ["u1", "u3"] h).2.2.2.1 "u2" (by decide)

/-- Counterexample to C6 as stated: `u9` is a detected join of the cycle
(it is in the membership delta), the cycle succeeds, yet no event of the
cycle is a join event for `u9` — the change is dropped without emission,
and the generator has no logging path at all. -/
theorem detected_change_emitted_counterexample :
    "u9" ∈ membershipJoins ["u1"] ["u1", "u9"]
      ∧ runCycle dbSilent cidW none none 0 ["u1"] 10
        = .ok [heartbeatEvent cidW 10] 10 ["u1", "u9"]
      ∧ ([heartbeatEvent cidW 10].all
          fun e => !(isJoinEventFor "u9" e)) = true := by
  exact ⟨by decide, by decide, by decide⟩

/-- A failing presence loop means some queried record misses `last_seen`. -/
theorem emitPresence_err_exists (cid : String) :
    ∀ ps x, emitPresence cid ps = .error x →
      ∃ p ∈ ps, p.last_seen = none := by
  intro ps
  induction ps with
  | nil =>
      intro x h
      simp only [emitPresence] at h
      cases h
  | cons q rest ih =>
      intro x h
      simp only [emitPresence] at h
      cases hls : q.last_seen with
      | none => exact ⟨q, List.mem_cons_self _ _, hls⟩
      | some ls =>
          rw [hls] at h
          cases hrec : emitPresence cid rest with
          | ok evs2 => rw [hrec] at h; cases h
          | error pm =>
              obtain ⟨p, hp, hpl⟩ := ih pm hrec
              exact ⟨p, List.mem_cons_of_mem _ hp, hpl⟩

/-- Every queried message's event is yielded, whether or not the cycle
later fails. -/
theorem message_event_always_yielded (db : DB) (cid : String)
    (chan : Option String) (afterId : Option Nat) (lastCheck : Nat)
    (prevMembers : List String) (now : Nat) :
    ∀ m ∈ queryNewMessages db cid chan afterId lastCheck,
      buildMessageEvent db cid m
        ∈ cycleEvents cid now
          (runCycle db cid chan afterId lastCheck prevMembers now) := by
  intro m hm
  cases hcyc : runCycle db cid chan afterId lastCheck prevMembers now with
  | ok evs lc mems =>
      obtain ⟨presEvents, comm, _, _, _, _, hevs⟩ :=
        runCycle_ok_shape db cid chan afterId lastCheck prevMembers now evs
          lc mems hcyc
      subst hevs
      simp only [cycleEvents]
      exact List.mem_append_left _ (List.mem_append_left _
        (List.mem_append_left _ (List.mem_append_left _
          (List.mem_map_of_mem _ hm))))
  | err pre msg =>
      obtain ⟨presPart, hpre, _⟩ :=
        runCycle_err_shape db cid chan afterId lastCheck prevMembers now pre
          msg hcyc
      subst hpre
      simp only [cycleEvents]
      exact List.mem_append_left _ (List.mem_append_left _
        (List.mem_map_of_mem _ hm))

/-- C9: a queried message whose author id matches no user document is
still encoded — with the `"Unknown User"` author summary — and yielded;
and a cycle can only fail because a presence record misses `last_seen` or
because the community document disappeared, never because of author
resolution. -/
theorem unknown_author_still_emitted (db : DB) (cid : String)
    (chan : Option String) (afterId : Option Nat) (lastCheck : Nat)
    (prevMembers : List String) (now : Nat) (m : MessageDoc)
    (hm : m ∈ queryNewMessages db cid chan afterId lastCheck)
    (hghost : findUser db m.author_id = none) :
    (buildMessageEvent db cid m).data
        = .message m.id m.content
          { id := m.author_id, name := "Unknown User",
            username := "unknown", avatar := "" }
          m.mtype m.channel_id cid m.reply_to m.created_at
          (m.updated_at.getD m.created_at) m.is_edited m.edited_at
      ∧ buildMessageEvent db cid m
        ∈ cycleEvents cid now
          (runCycle db cid chan afterId lastCheck prevMembers now)
      ∧ ∀ pre emsg,
          runCycle db cid chan afterId lastCheck prevMembers now
              = .err pre emsg →
            findCommunity db cid = none
              ∨ ∃ p ∈ queryPresence db prevMembers lastCheck,
                  p.last_seen = none := by
  refine ⟨?_, ?_, ?_⟩
  · simp [buildMessageEvent, buildAuthorInfo, hghost]
  · exact message_event_always_yielded db cid chan afterId lastCheck
      prevMembers now m hm
  · intro pre emsg h
    simp only [runCycle] at h
    cases hpres : emitPresence cid (queryPresence db prevMembers lastCheck)
      with
    | error pm =>
        exact Or.inr (emitPresence_err_exists cid _ pm hpres)
    | ok presEvents =>
        rw [hpres] at h
        cases hcomm : findCommunity db cid with
        | none => exact Or.inl rfl
        | some comm => rw [hcomm] at h; cases h

/-- Witness for C9: on the concrete store the ghost-authored message is
emitted with the `"Unknown User"` summary. -/
theorem unknown_author_still_emitted_witness :
    msgGhost ∈ queryNewMessages dbGhost cidW none none 0
      ∧ findUser dbGhost "ghost" = none
      ∧ (buildMessageEvent dbGhost cidW msgGhost).data
        = .message 2 "boo"
          { id := "ghost", name := "Unknown User",
            username := "unknown", avatar := "" }
          "message" none cidW none 4 4 false none := by
  refine ⟨by decide, by decide, ?_⟩
  exact (unknown_author_still_emitted dbGhost cidW none none 0 ["u1"] 10
    msgGhost (by decide) (by decide)).1

/-! ### Presence endpoint lemmas -/

theorem findUser_id (db : DB) (uid : String) (u : UserDoc)
    (h : findUser db uid = some u) : u.id = uid := by
  have h2 : db.users.find? (fun x => x.id == uid) = some u := h
  have h3 := List.find?_some h2
  exact eq_of_beq (by simpa using h3)

theorem find?_updateFirst {α : Type} (p : α → Bool) (f : α → α)
    (hpf : ∀ x, p x = true → p (f x) = true) :
    ∀ (l : List α) (x : α), l.find? p = some x →
      (updateFirst p f l).find? p = some (f x) := by
  intro l
  induction l with
  | nil => intro x h; cases h
  | cons y ys ih =>
      intro x h
      cases hpy : p y with
      | true =>
          rw [List.find?_cons_of_pos _ hpy] at h
          injection h with h
          subst h
          simp only [updateFirst, hpy]
          exact List.find?_cons_of_pos _ (hpf y hpy)
      | false =>
          rw [List.find?_cons_of_neg _ (by simp [hpy])] at h
          simp only [updateFirst, hpy]
          rw [List.find?_cons_of_neg _ (by simp [hpy])]
          exact ih x h

theorem findPresence_append_one (db : DB) (uid : String) (d : PresenceDoc)
    (h : findPresence db uid = none) (hd : (d.user_id == uid) = true) :
    findPresence { db with user_presence := db.user_presence ++ [d] } uid
      = some d := by
  simp only [findPresence] at h ⊢
  rw [List.find?_append, h]
  have hone : List.find? (fun p => p.user_id == uid) [d] = some d :=
    List.find?_cons_of_pos _ (by simpa using hd)
  rw [hone]
  rfl

theorem get_user_presence_found (db : DB) (uid : String) (u : UserDoc)
    (r : PresenceDoc) (ls now : Nat)
    (hu : findUser db uid = some u)
    (hr : findPresence db u.id = some r)
    (hls : r.last_seen = some ls) :
    get_user_presence db uid now = .ok
      ({ user_id := r.user_id, status := r.status,
         custom_message := r.custom_message, last_seen := ls,
         updated_at := r.updated_at }, db) := by
  simp [get_user_presence, hu, hr, hls]

theorem get_user_presence_missing (db : DB) (uid : String) (u : UserDoc)
    (now : Nat)
    (hu : findUser db uid = some u)
    (hr : findPresence db u.id = none) :
    get_user_presence db uid now = .ok
      ({ user_id := u.id, status := "offline", custom_message := none,
         last_seen := now, updated_at := now },
       { db with user_presence :=
           db.user_presence ++ [defaultPresence u.id now] }) := by
  simp [get_user_presence, hu, hr, defaultPresence]

theorem upsertPresence_existing (db : DB) (uid : String)
    (upd : PresenceUpdate) (now : Nat) (r : PresenceDoc)
    (h : findPresence db uid = some r) :
    findPresence (upsertPresence db uid upd now) uid
      = some (setRecord r upd now) := by
  have hn : db.user_presence.find? (fun p => p.user_id == uid) = some r := h
  simp only [upsertPresence, findPresence, hn]
  exact find?_updateFirst (fun p => p.user_id == uid)
    (fun p => setRecord p upd now) (fun x hx => hx) db.user_presence r hn

theorem upsertPresence_new (db : DB) (uid : String) (upd : PresenceUpdate)
    (now : Nat)
    (h : findPresence db uid = none) :
    findPresence (upsertPresence db uid upd now) uid
      = some (newRecord uid upd now) := by
  have hn : db.user_presence.find? (fun p => p.user_id == uid) = none := h
  simp only [upsertPresence, findPresence, hn]
  rw [List.find?_append, hn]
  have hone : List.find? (fun p => p.user_id == uid)
      [newRecord uid upd now] = some (newRecord uid upd now) :=
    List.find?_cons_of_pos _ (by simp [newRecord])
  rw [hone]
  rfl

/-- The upsert touches only the `user_presence` collection. -/
theorem upsertPresence_users (db : DB) (uid : String) (upd : PresenceUpdate)
    (now : Nat) : (upsertPresence db uid upd now).users = db.users := by
  simp only [upsertPresence]
  cases findPresence db uid <;> rfl

theorem findUser_upsertPresence (db : DB) (uid v : String)
    (upd : PresenceUpdate) (now : Nat) :
    findUser (upsertPresence db uid upd now) v = findUser db v := by
  simp only [findUser, upsertPresence_users]

/-- `update_user_presence` called by the owner reduces to the upsert
followed by the read-back. -/
theorem update_user_presence_owner (db : DB) (uid : String) (u : UserDoc)
    (upd : PresenceUpdate) (now : Nat)
    (hu : findUser db uid = some u)
    (htrim : ((pyStrip u.id).length == 0) = false) :
    update_user_presence db uid upd u.id now
      = get_user_presence (upsertPresence db u.id upd now) u.id now := by
  simp only [update_user_presence, htrim, Bool.false_eq_true, if_false, hu,
    bne_self_eq_false]

/-- C8: a user with no presence record reads back as a default `offline`
record (created by the read); after the user sets status `online`, both
the set call's response and any later read return `online` with
`last_seen` equal to the set call's time. -/
theorem presence_offline_default_then_online (db : DB) (uid : String)
    (u : UserDoc) (t1 t2 : Nat) (cm : Option String)
    (hu : findUser db uid = some u)
    (hnone : findPresence db u.id = none)
    (htrim : ((pyStrip u.id).length == 0) = false) :
    ∃ resp1 db1, get_user_presence db uid t1 = .ok (resp1, db1)
      ∧ resp1.status = "offline"
      ∧ findPresence db1 u.id = some (defaultPresence u.id t1)
      ∧ ∃ resp2 db2,
          update_user_presence db1 u.id
              { status := "online", custom_message := cm } u.id t2
            = .ok (resp2, db2)
          ∧ resp2.status = "online" ∧ resp2.last_seen = t2
          ∧ ∀ t3, ∃ resp3 db3,
              get_user_presence db2 u.id t3 = .ok (resp3, db3)
                ∧ resp3.status = "online" ∧ resp3.last_seen = t2 := by
  have hid := findUser_id db uid u hu
  have hget1 := get_user_presence_missing db uid u t1 hu hnone
  have hfind1 : findPresence
      { db with user_presence := db.user_presence ++ [defaultPresence u.id t1] }
      u.id = some (defaultPresence u.id t1) :=
    findPresence_append_one db u.id _ hnone (by simp [defaultPresence])
  have huser1 : findUser
      { db with user_presence := db.user_presence ++ [defaultPresence u.id t1] }
      u.id = some u := by
    have h2 : findUser db u.id = some u := by rw [hid]; exact hu
    exact h2
  have hupd_eq := update_user_presence_owner
    { db with user_presence := db.user_presence ++ [defaultPresence u.id t1] }
    u.id u { status := "online", custom_message := cm } t2 huser1 htrim
  have hrec2 := upsertPresence_existing
    { db with user_presence := db.user_presence ++ [defaultPresence u.id t1] }
    u.id { status := "online", custom_message := cm } t2 _ hfind1
  have huser2 : findUser (upsertPresence
      { db with user_presence := db.user_presence ++ [defaultPresence u.id t1] }
      u.id { status := "online", custom_message := cm } t2) u.id = some u := by
    rw [findUser_upsertPresence]
    exact huser1
  have hls2 : (setRecord (defaultPresence u.id t1)
      { status := "online", custom_message := cm } t2).last_seen
      = some t2 := rfl
  have hget2 := get_user_presence_found _ u.id u _ t2 t2 huser2 hrec2 hls2
  have hget3 := fun t3 =>
    get_user_presence_found _ u.id u _ t2 t3 huser2 hrec2 hls2
  refine ⟨_, _, hget1, rfl, hfind1, ?_⟩
  rw [hupd_eq]
  exact ⟨_, _, hget2, rfl, rfl, fun t3 => ⟨_, _, hget3 t3, rfl, rfl⟩⟩

/-- C10: a set-presence call with a non-`online` status and no existing
record upserts a record with no `last_seen` field, and the read-back that
builds the response fails with `KeyError` instead of returning the
updated envelope. -/
theorem presence_update_nononline_keyerror (db : DB) (uid : String)
    (u : UserDoc) (upd : PresenceUpdate) (now : Nat)
    (hu : findUser db uid = some u)
    (hnone : findPresence db u.id = none)
    (hst : (upd.status == "online") = false)
    (htrim : ((pyStrip u.id).length == 0) = false) :
    findPresence (upsertPresence db u.id upd now) u.id = some
        { user_id := u.id
          status := upd.status
          custom_message := upd.custom_message
          updated_at := now
          last_seen := none }
      ∧ update_user_presence db u.id upd u.id now = .error .keyError := by
  have hid := findUser_id db uid u hu
  have hu' : findUser db u.id = some u := by rw [hid]; exact hu
  have hrec : findPresence (upsertPresence db u.id upd now) u.id = some
      { user_id := u.id
        status := upd.status
        custom_message := upd.custom_message
        updated_at := now
        last_seen := none } := by
    rw [upsertPresence_new db u.id upd now hnone]
    simp [newRecord, hst]
  refine ⟨hrec, ?_⟩
  rw [update_user_presence_owner db u.id u upd now hu' htrim]
  have huser2 : findUser (upsertPresence db u.id upd now) u.id = some u := by
    rw [findUser_upsertPresence]
    exact hu'
  simp [get_user_presence, huser2, hrec]

/-- Witness for C8: the concrete user `p1` with no presence record. -/
theorem presence_offline_default_then_online_witness :
    findUser dbPat "p1" = some userPat
      ∧ findPresence dbPat userPat.id = none
      ∧ ∃ resp1 db1, get_user_presence dbPat "p1" 5 = .ok (resp1, db1)
        ∧ resp1.status = "offline"
        ∧ findPresence db1 userPat.id = some (defaultPresence userPat.id 5)
        ∧ ∃ resp2 db2,
            update_user_presence db1 userPat.id
                { status := "online", custom_message := none } userPat.id 7
              = .ok (resp2, db2)
            ∧ resp2.status = "online" ∧ resp2.last_seen = 7
            ∧ ∀ t3, ∃ resp3 db3,
                get_user_presence db2 userPat.id t3 = .ok (resp3, db3)
                  ∧ resp3.status = "online" ∧ resp3.last_seen = 7 := by
  refine ⟨by decide, by decide, ?_⟩
  exact presence_offline_default_then_online dbPat "p1" userPat 5 7 none
    (by decide) (by decide) (by decide)

/-- Witness for C10: user `p1` sets status `away` with no prior record. -/
theorem presence_update_nononline_keyerror_witness :
    (("away" == "online") = false)
      ∧ findPresence (upsertPresence dbPat "p1"
            { status := "away", custom_message := none } 5) "p1"
          = some
            { user_id := "p1"
              status := "away"
              custom_message := none
              updated_at := 5
              last_seen := none }
      ∧ update_user_presence dbPat "p1"
          { status := "away", custom_message := none } "p1" 5
        = .error .keyError := by
  refine ⟨by decide, ?_⟩
  have h := presence_update_nononline_keyerror dbPat "p1" userPat
    { status := "away", custom_message := none } 5
    (by decide) (by decide) (by decide) (by decide)
  exact h

/-! ### Typing expiry -/

theorem mem_updateFirst {α : Type} (p : α → Bool) (f : α → α) :
    ∀ (l : List α) (a : α), a ∈ updateFirst p f l →
      a ∈ l ∨ ∃ x ∈ l, a = f x := by
  intro l
  induction l with
  | nil => intro a ha; cases ha
  | cons y ys ih =>
      intro a ha
      cases hpy : p y with
      | true =>
          rw [updateFirst, hpy] at ha
          rcases List.mem_cons.mp ha with rfl | hmem
          · exact Or.inr ⟨y, List.mem_cons_self _ _, rfl⟩
          · exact Or.inl (List.mem_cons_of_mem _ hmem)
      | false =>
          rw [updateFirst, hpy] at ha
          rcases List.mem_cons.mp ha with rfl | hmem
          · exact Or.inl (List.mem_cons_self _ _)
          · rcases ih a hmem with h1 | ⟨x, hx, rfl⟩
            · exact Or.inl (List.mem_cons_of_mem _ h1)
            · exact Or.inr ⟨x, List.mem_cons_of_mem _ hx, rfl⟩

/-- C3 (amended): every record returned by a typing listing has an
expiry that has not yet passed (strictly-expired records are purged
before listing), and every record present after a typing-start upsert is
either an untouched pre-existing record or carries the fixed TTL:
`started_at = now` and `expires_at = now + 3`.  Together: a record
created by typing-start is listed by no later call made strictly more
than 3 seconds after its creation, even if typing-stop never ran. -/
theorem typing_expired_never_listed (db : DB) (cid chanId caller : String)
    (now : Nat) (lst : List TypingDoc) (db2 : DB)
    (h : get_typing_indicators db cid chanId caller now = .ok (lst, db2)) :
    (∀ r ∈ lst, now ≤ r.expires_at)
      ∧ ∀ (db0 : DB) (c ch u : String) (t : Nat) (db1 : DB),
          send_typing_indicator db0 c ch true u t = .ok db1 →
          ∀ r ∈ db1.typing_indicators,
            r ∈ db0.typing_indicators
              ∨ (r.started_at = t ∧ r.expires_at = t + 3) := by
  constructor
  · intro r hr
    simp only [get_typing_indicators] at h
    cases htc : typingContext db cid chanId caller with
    | error e => rw [htc] at h; cases h
    | ok ch =>
        rw [htc] at h
        cases h
        rcases List.mem_filter.mp hr with ⟨hpurged, _⟩
        rcases List.mem_filter.mp hpurged with ⟨_, hkeep⟩
        simp only [Bool.not_eq_true', decide_eq_false_iff_not,
          Nat.not_lt] at hkeep
        exact hkeep
  · intro db0 c ch u t db1 hsend r hr
    simp only [send_typing_indicator] at hsend
    cases htc : typingContext db0 c ch u with
    | error e => rw [htc] at hsend; cases hsend
    | ok chd =>
        rw [htc] at hsend
        cases hfu : findUser db0 u with
        | none => rw [hfu] at hsend; cases hsend
        | some user =>
            rw [hfu] at hsend
            simp only [if_true] at hsend
            cases hkeyed : db0.typing_indicators.filter fun tt =>
                tt.user_id == u && tt.community_id == c
                  && tt.channel_id == chd.id with
            | nil =>
                rw [hkeyed] at hsend
                cases hsend
                rcases List.mem_append.mp hr with hmem | hmem
                · exact Or.inl hmem
                · rcases List.mem_singleton.mp hmem with rfl
                  exact Or.inr ⟨rfl, rfl⟩
            | cons k ks =>
                rw [hkeyed] at hsend
                cases hsend
                rcases mem_updateFirst _ _ _ _ hr with hmem | ⟨x, _, rfl⟩
                · exact Or.inl hmem
                · exact Or.inr ⟨rfl, rfl⟩

/-- Witness for C3 (amended): 2 seconds after `tu` started typing, the
listing still returns the record and its expiry has not passed. -/
theorem typing_expired_never_listed_witness :
    get_typing_indicators dbT cidW chW "tv" 2 = .ok ([typT], dbT)
      ∧ (2 : Nat) ≤ typT.expires_at := by
  have h : get_typing_indicators dbT cidW chW "tv" 2 = .ok ([typT], dbT) := by
    decide
  exact ⟨h, (typing_expired_never_listed dbT cidW chW "tv" 2 [typT] dbT h).1
    typT (by decide)⟩

/-- Counterexample to C3 as stated: a record created by typing-start at
time 0 (TTL 3, so "3 or more seconds" have elapsed at time 3) is still
returned by a listing at time 3, because the purge deletes only records
with `expires_at` strictly below now. -/
theorem typing_expiry_counterexample :
    send_typing_indicator dbT0 cidW chW true "tu" 0 = .ok dbT
      ∧ typT.started_at + 3 ≤ 3
      ∧ get_typing_indicators dbT cidW chW "tv" 3 = .ok ([typT], dbT) := by
  decide

/-! ### Message ceiling and cross-cycle ordering -/

theorem msgCreated_none_of_rank_ne {e : SSEEvent}
    (h : kindRank e.data ≠ 0) : msgCreated e = none := by
  cases e with
  | mk et d cid ch ts =>
      cases d <;> simp [msgCreated, kindRank] at h ⊢

theorem messageTimes_append (a b : List SSEEvent) :
    messageTimes (a ++ b) = messageTimes a ++ messageTimes b :=
  List.filterMap_append a b msgCreated

theorem messageTimes_map_build (db : DB) (cid : String)
    (msgs : List MessageDoc) :
    messageTimes (msgs.map (buildMessageEvent db cid))
      = msgs.map fun m => m.created_at := by
  induction msgs with
  | nil => rfl
  | cons m rest ih =>
      simp only [List.map_cons, messageTimes, List.filterMap_cons] at ih ⊢
      rw [show msgCreated (buildMessageEvent db cid m)
        = some m.created_at from rfl]
      rw [ih]

theorem messageTimes_nil_of_rank_ne (l : List SSEEvent)
    (h : ∀ e ∈ l, kindRank e.data ≠ 0) : messageTimes l = [] := by
  induction l with
  | nil => rfl
  | cons e rest ih =>
      simp only [messageTimes, List.filterMap_cons,
        msgCreated_none_of_rank_ne (h e (List.mem_cons_self _ _))]
      exact ih fun x hx => h x (List.mem_cons_of_mem _ hx)

theorem queryNewMessages_sorted (db : DB) (cid : String)
    (chan : Option String) (afterId : Option Nat) (lastCheck : Nat) :
    List.Pairwise createdLE
      (queryNewMessages db cid chan afterId lastCheck) := by
  refine List.Pairwise.sublist (List.take_sublist _ _) ?_
  exact List.sorted_insertionSort createdLE _

theorem queryNewMessages_mem (db : DB) (cid : String) (chan : Option String)
    (afterId : Option Nat) (lastCheck : Nat) (m : MessageDoc)
    (hm : m ∈ queryNewMessages db cid chan afterId lastCheck) :
    m ∈ db.posts ∧ lastCheck < m.created_at := by
  simp only [queryNewMessages, sortByCreated] at hm
  have hm2 := List.Sublist.mem hm (List.take_sublist _ _)
  have hm3 := (List.perm_insertionSort createdLE _).mem_iff.mp hm2
  rcases List.mem_filter.mp hm3 with ⟨hmem, hp⟩
  refine ⟨hmem, ?_⟩
  simp only [Bool.and_eq_true, decide_eq_true_eq] at hp
  exact hp.1.1.2

theorem queryNewMessages_length_le (db : DB) (cid : String)
    (chan : Option String) (afterId : Option Nat) (lastCheck : Nat) :
    (queryNewMessages db cid chan afterId lastCheck).length ≤ 50 := by
  simp only [queryNewMessages, List.length_take]
  exact inf_le_left

theorem runCycle_ok_messageTimes (db : DB) (cid : String)
    (chan : Option String) (afterId : Option Nat) (lastCheck : Nat)
    (prevMembers : List String) (now : Nat) (evs : List SSEEvent) (lc : Nat)
    (mems : List String)
    (h : runCycle db cid chan afterId lastCheck prevMembers now
      = .ok evs lc mems) :
    messageTimes evs
      = (queryNewMessages db cid chan afterId lastCheck).map
        fun m => m.created_at := by
  obtain ⟨presEvents, comm, hpres, _, _, _, hevs⟩ :=
    runCycle_ok_shape db cid chan afterId lastCheck prevMembers now evs lc
      mems h
  subst hevs
  rw [messageTimes_append, messageTimes_append, messageTimes_append,
    messageTimes_append, messageTimes_map_build]
  rw [messageTimes_nil_of_rank_ne _ fun e he => by
      rw [emitPresence_ok_rank cid _ _ hpres e he]; omega]
  rw [messageTimes_nil_of_rank_ne _ fun e he => by
      rw [buildJoinEvents_rank db cid _ now e he]; omega]
  rw [messageTimes_nil_of_rank_ne _ fun e he => by
      rcases List.mem_map.mp he with ⟨uid, _, rfl⟩
      simp [buildLeaveEvent, kindRank]]
  rw [messageTimes_nil_of_rank_ne _ fun e he => by
      rcases List.mem_singleton.mp he with rfl
      simp [heartbeatEvent, kindRank]]
  simp

theorem runCycle_err_messageTimes (db : DB) (cid : String)
    (chan : Option String) (afterId : Option Nat) (lastCheck : Nat)
    (prevMembers : List String) (now : Nat) (pre : List SSEEvent)
    (msg : String)
    (h : runCycle db cid chan afterId lastCheck prevMembers now
      = .err pre msg) :
    messageTimes (pre ++ [errorEvent cid msg now])
      = (queryNewMessages db cid chan afterId lastCheck).map
        fun m => m.created_at := by
  obtain ⟨presPart, hpre, hrank⟩ :=
    runCycle_err_shape db cid chan afterId lastCheck prevMembers now pre msg
      h
  subst hpre
  rw [messageTimes_append, messageTimes_append, messageTimes_map_build]
  rw [messageTimes_nil_of_rank_ne _ fun e he => by
      rw [hrank e he]; omega]
  rw [messageTimes_nil_of_rank_ne _ fun e he => by
      rcases List.mem_singleton.mp he with rfl
      simp [errorEvent, kindRank]]
  simp

/-- Sortedness of the emitted message creation times across a whole run,
plus the strict lower bound by the initial checkpoint. -/
theorem streamLoop_messageTimes (cid : String) (chan : Option String)
    (afterId : Option Nat) :
    ∀ (inputs : List (DB × Nat)) (lastCheck : Nat) (mems : List String),
      (∀ p ∈ inputs, ∀ m ∈ p.1.posts, m.created_at ≤ p.2) →
      clocksMono lastCheck inputs →
      List.Pairwise (fun a b => a ≤ b)
          (messageTimes (streamLoop cid chan afterId inputs lastCheck mems))
        ∧ ∀ t ∈ messageTimes
            (streamLoop cid chan afterId inputs lastCheck mems),
            lastCheck < t := by
  intro inputs
  induction inputs with
  | nil =>
      intro lastCheck mems _ _
      exact ⟨List.Pairwise.nil, by simp [streamLoop, messageTimes]⟩
  | cons p rest ih =>
      obtain ⟨db, now⟩ := p
      intro lastCheck mems hposts hclock
      obtain ⟨hlcnow, hclock2⟩ := hclock
      have hdb : ∀ m ∈ db.posts, m.created_at ≤ now :=
        hposts (db, now) (List.mem_cons_self _ _)
      have hposts2 : ∀ q ∈ rest, ∀ m ∈ q.1.posts, m.created_at ≤ q.2 :=
        fun q hq => hposts q (List.mem_cons_of_mem _ hq)
      have hqmem := queryNewMessages_mem db cid chan afterId lastCheck
      have hqsorted : List.Pairwise (fun a b => a ≤ b)
          ((queryNewMessages db cid chan afterId lastCheck).map
            fun m => m.created_at) :=
        List.Pairwise.map _ (fun a b hab => hab)
          (queryNewMessages_sorted db cid chan afterId lastCheck)
      have hqbounds : ∀ t ∈ (queryNewMessages db cid chan afterId
          lastCheck).map (fun m => m.created_at),
          lastCheck < t ∧ t ≤ now := by
        intro t ht
        rcases List.mem_map.mp ht with ⟨m, hm, rfl⟩
        obtain ⟨hmdb, hlt⟩ := hqmem m hm
        exact ⟨hlt, hdb m hmdb⟩
      cases hcyc : runCycle db cid chan afterId lastCheck mems now with
      | ok evs lc2 mems2 =>
          obtain ⟨presEvents, comm, _, _, hlc2, _, _⟩ :=
            runCycle_ok_shape db cid chan afterId lastCheck mems now evs lc2
              mems2 hcyc
          have hmt := runCycle_ok_messageTimes db cid chan afterId lastCheck
            mems now evs lc2 mems2 hcyc
          obtain ⟨ihs, ihb⟩ := ih now mems2 hposts2 hclock2
          simp only [streamLoop, hcyc]
          rw [messageTimes_append, hmt, hlc2]
          constructor
          · refine List.pairwise_append.mpr ⟨hqsorted, ihs, ?_⟩
            intro a ha b hb
            exact Nat.le_trans (hqbounds a ha).2 (Nat.le_of_lt (ihb b hb))
          · intro t ht
            rcases List.mem_append.mp ht with h1 | h1
            · exact (hqbounds t h1).1
            · exact Nat.lt_of_le_of_lt hlcnow (ihb t h1)
      | err pre msg =>
          have hmt := runCycle_err_messageTimes db cid chan afterId lastCheck
            mems now pre msg hcyc
          simp only [streamLoop, hcyc]
          rw [hmt]
          exact ⟨hqsorted, fun t ht => (hqbounds t ht).1⟩

/-- C2 (amended): every cycle emits at most 50 message events, and across
a whole run — provided the sampled clocks never go backwards and no
message is dated after the cycle that reads it — the creation times of
emitted message events are monotonic non-decreasing, each strictly above
the connection's initial checkpoint (which is why a message skipped by
the ceiling, lying at or below the advanced checkpoint, is never emitted
by any later cycle). -/
theorem message_ceiling_and_monotonicity :
    (∀ (db : DB) (cid : String) (chan : Option String)
        (afterId : Option Nat) (lastCheck : Nat) (prevMembers : List String)
        (now : Nat),
      (messageTimes (cycleEvents cid now
          (runCycle db cid chan afterId lastCheck prevMembers now))).length
        ≤ 50)
      ∧ (∀ (cid : String) (chan : Option String) (afterId : Option Nat)
          (inputs : List (DB × Nat)) (lastCheck : Nat) (mems : List String),
          (∀ p ∈ inputs, ∀ m ∈ p.1.posts, m.created_at ≤ p.2) →
          clocksMono lastCheck inputs →
          List.Pairwise (fun a b => a ≤ b)
              (messageTimes
                (streamLoop cid chan afterId inputs lastCheck mems))
            ∧ ∀ t ∈ messageTimes
                (streamLoop cid chan afterId inputs lastCheck mems),
                lastCheck < t) := by
  constructor
  · intro db cid chan afterId lastCheck prevMembers now
    cases hcyc : runCycle db cid chan afterId lastCheck prevMembers now with
    | ok evs lc mems =>
        simp only [cycleEvents]
        rw [runCycle_ok_messageTimes db cid chan afterId lastCheck
          prevMembers now evs lc mems hcyc, List.length_map]
        exact queryNewMessages_length_le db cid chan afterId lastCheck
    | err pre msg =>
        simp only [cycleEvents]
        rw [runCycle_err_messageTimes db cid chan afterId lastCheck
          prevMembers now pre msg hcyc, List.length_map]
        exact queryNewMessages_length_le db cid chan afterId lastCheck
  · intro cid chan afterId inputs lastCheck mems hposts hclock
    exact streamLoop_messageTimes cid chan afterId inputs lastCheck mems
      hposts hclock

/-- Witness for C2 (amended): the one-of-each cycle satisfies the clock
hypotheses and its emitted message times are sorted. -/
theorem message_ceiling_and_monotonicity_witness :
    (∀ p ∈ [(dbW, 10)], ∀ m ∈ (Prod.fst p).posts, m.created_at ≤ p.2)
      ∧ clocksMono 0 [(dbW, 10)]
      ∧ List.Pairwise (fun a b => a ≤ b)
          (messageTimes
            (streamLoop cidW none none [(dbW, 10)] 0 ["u1", "u2"])) := by
  refine ⟨by decide, ⟨by omega, trivial⟩, ?_⟩
  exact (message_ceiling_and_monotonicity.2 cidW none none [(dbW, 10)] 0
    ["u1", "u2"] (by decide) ⟨by omega, trivial⟩).1

/-- Counterexample to C2 as stated: with 51 messages (created at 1..51),
all after the checkpoint 0, the first cycle hits the 50-message ceiling;
the 51st message is emitted neither in that cycle nor in the next — the
checkpoint has advanced past it, so it is lost, not picked up. -/
theorem message_ceiling_pickup_counterexample :
    mkMsg 51 ∈ dbBig.posts
      ∧ 0 < (mkMsg 51).created_at
      ∧ (messageTimes
          (streamLoop cidW none none [(dbBig, 100)] 0 ["u1"])).length = 50
      ∧ ((runStream cidW none none ["u1"] 0
            [(dbBig, 100), (dbBig, 200)]).all
          fun e => !(isMessageEventFor 51 e)) = true := by
  decide

end GlassScribe
